import Mathlib

/-!
Verification of the AI-powered task manager against its specification.

The frontend (TypeScript: `lib/api`, the Tasks page, the AI assistant page,
the Dashboard) is embedded directly.  Timestamps (`due_date`, `created_at`)
are modelled as integer milliseconds, the value `new Date(s).getTime()` that
the pages compare; JavaScript numbers used for hours are modelled as
rationals.  The backend engine (ranking, goal decomposition, task-store
validation) is not part of the sources and is modelled from the spec where a
claim needs it; such definitions say so in their doc comments.
-/

namespace TaskApp

/-- The `Task` interface of `lib/api`. -/
structure Task where
  id : Int
  title : String
  description : Option String
  priority : Int
  estimated_hours : Option ℚ
  due_date : Option Int
  completed : Bool
  project_id : Option Int
  created_at : Int
deriving DecidableEq

/-- The `Project` interface of `lib/api`. -/
structure Project where
  id : Int
  name : String
  description : Option String
  created_at : Int
deriving DecidableEq

/-- The `UpdateTaskInput` interface of `lib/api`: every field optional. -/
structure UpdateTaskInput where
  title : Option String
  description : Option String
  priority : Option Int
  estimated_hours : Option ℚ
  due_date : Option Int
  completed : Option Bool
deriving DecidableEq

/-- The `CreateTaskInput` interface of `lib/api`. -/
structure CreateTaskInput where
  title : String
  description : Option String
  due_date : Option Int
  project_id : Option Int
deriving DecidableEq

/-- A subtask entry of the `breakdown` response as the client declares it
(`aiAPI.breakdown` in `lib/api`): a title and an estimated-hours figure,
and no other field. -/
structure BreakdownSubtask where
  title : String
  estimated_hours : ℚ
deriving DecidableEq

/-- The `breakdown` response as the client declares it: a `project_id` and
the list of subtask entries. -/
structure BreakdownResponse where
  project_id : Int
  subtasks : List BreakdownSubtask
deriving DecidableEq

/-- A subtask entry as the spec words the `breakdown` output: title,
estimated hours and the resulting task identifier.  Kept separate from
`BreakdownSubtask` so the two shapes can be compared. -/
structure SpecSubtaskEntry where
  title : String
  estimated_hours : ℚ
  task_id : Int
deriving DecidableEq

/-- Forgetting the `task_id` field turns a spec-shaped subtask entry into
the entry shape the client code declares. -/
def SpecSubtaskEntry.erase (e : SpecSubtaskEntry) : BreakdownSubtask :=
  ⟨e.title, e.estimated_hours⟩

/-- A string is blank when it consists solely of whitespace; this is the
JavaScript condition `!s.trim()` used by the submit handlers and, per the
spec, by subtask-title validation. -/
def isBlank (s : String) : Bool := s.data.all Char.isWhitespace

/-! ### Tasks page and Dashboard (from the page sources) -/

/-- The three badge colors used by the priority pill. -/
inductive BadgeColor
  | red
  | yellow
  | green
deriving DecidableEq

/-- The priority badge classifier on the Tasks page:
`priority <= 2` red, `priority <= 5` yellow, otherwise green. -/
def taskPagePriorityColor (priority : Int) : BadgeColor :=
  if priority ≤ 2 then .red else if priority ≤ 5 then .yellow else .green

/-- The priority badge classifier on the Dashboard page, written identically
to the one on the Tasks page. -/
def dashboardPriorityColor (priority : Int) : BadgeColor :=
  if priority ≤ 2 then .red else if priority ≤ 5 then .yellow else .green

/-- Milliseconds in a day, for bucketing timestamps into calendar days. -/
def msPerDay : Int := 86400000

/-- The calendar day a millisecond timestamp falls on (floor division). -/
def dayOf (t : Int) : Int := Int.fdiv t msPerDay

/-- date-fns `isPast`: the instant lies strictly before `now`. -/
def isPast (d now : Int) : Bool := decide (d < now)

/-- date-fns `isToday`: the instant falls on the same calendar day as `now`. -/
def isToday (d now : Int) : Bool := decide (dayOf d = dayOf now)

/-- Dashboard: `tasks.filter(task => !task.completed)`. -/
def incompleteTasks (tasks : List Task) : List Task :=
  tasks.filter fun t => !t.completed

/-- Dashboard: `tasks.filter(task => task.completed)`. -/
def completedTasks (tasks : List Task) : List Task :=
  tasks.filter fun t => t.completed

/-- Dashboard: incomplete tasks with a due date that `isPast` and not
`isToday`. -/
def overdueTasks (tasks : List Task) (now : Int) : List Task :=
  (incompleteTasks tasks).filter fun t =>
    match t.due_date with
    | some d => isPast d now && !(isToday d now)
    | none => false

/-- Dashboard: incomplete tasks whose due date `isToday`. -/
def todayTasks (tasks : List Task) (now : Int) : List Task :=
  (incompleteTasks tasks).filter fun t =>
    match t.due_date with
    | some d => isToday d now
    | none => false

/-- Dashboard: `incompleteTasks.reduce((sum, task) => sum +
(task.estimated_hours || 0), 0)`. -/
def totalEstimatedHours (tasks : List Task) : ℚ :=
  ((incompleteTasks tasks).map fun t => t.estimated_hours.getD 0).sum

/-- The overdue count exactly as the claim words it: incomplete tasks whose
due date is strictly before `now`, including ones due earlier today. -/
def claimOverdueCount (tasks : List Task) (now : Int) : Nat :=
  (tasks.filter fun t =>
    !t.completed &&
      match t.due_date with
      | some d => decide (d < now)
      | none => false).length

/-! ### AI assistant page (from the page source) -/

/-- A chat message role on the AI assistant page. -/
inductive Role
  | user
  | assistant
deriving DecidableEq

/-- A chat message on the AI assistant page. -/
structure Message where
  role : Role
  content : String
  timestamp : Int
deriving DecidableEq

/-- `handleChatSubmit`: returns the message list after the handler, the chat
input box contents after the handler, and the query sent to `aiAPI.query`
(`none` when no request was made).  The handler returns early when the
trimmed input is empty. -/
def handleChatSubmit (chatInput : String) (messages : List Message)
    (now : Int) : List Message × String × Option String :=
  if isBlank chatInput then (messages, chatInput, none)
  else (messages ++ [⟨Role.user, chatInput, now⟩], "", some chatInput)

/-- `handleGoalSubmit`: the goal sent to `aiAPI.breakdown`, `none` when the
trimmed input is empty and the handler returns early. -/
def handleGoalSubmit (goalInput : String) : Option String :=
  if isBlank goalInput then none else some goalInput

/-- `toggleTaskComplete` on the Tasks page: the id passed to
`tasksAPI.update` and the patch object, whose only present field is
`completed`, set to the negation of the task's current value. -/
def toggleTaskComplete (task : Task) : Int × UpdateTaskInput :=
  (task.id, ⟨none, none, none, none, none, some (!task.completed)⟩)

/-! ### Request interceptor (from `lib/api`) -/

/-- The next-auth session as the interceptor reads it. -/
structure Session where
  accessToken : Option String
deriving DecidableEq

/-- An outgoing axios request configuration: the Authorization header plus
the remaining fields the interceptor never touches. -/
structure RequestConfig where
  url : String
  method : String
  data : String
  authorization : Option String
deriving DecidableEq

/-- The single axios request interceptor: when a session exists and
`session.accessToken` is truthy (present and non-empty), set the
Authorization header to `Bearer` followed by the token; otherwise return the
configuration unchanged. -/
def requestInterceptor (session : Option Session) (config : RequestConfig) :
    RequestConfig :=
  match session with
  | some s =>
    match s.accessToken with
    | some tok =>
      if tok = "" then config
      else { config with authorization := some ("Bearer " ++ tok) }
    | none => config
  | none => config

/-! ### Prioritization Engine

Modelled from the spec: the ranking engine lives in the backend
(`main.py`), which is not among the sources; §4.1 fixes the ordering:
overdue tasks first, then dated non-overdue tasks by ascending days-to-due
with estimated hours as secondary factor, then tasks with no due date;
final tie-break ascending creation timestamp then ascending identifier. -/

/-- Modelled from the spec: the urgency bucket of §4.1 — 0 for overdue
tasks, 1 for dated non-overdue tasks, 2 for tasks with no due date. -/
def bucketOf (now : Int) (t : Task) : Nat :=
  match t.due_date with
  | some d => if d < now then 0 else 1
  | none => 2

/-- Modelled from the spec: the due-date component of the ranking key
(neutral 0 when absent; absent dates are separated by the bucket). -/
def dueValOf (t : Task) : Int := t.due_date.getD 0

/-- Modelled from the spec: the effort component of the ranking key,
favouring smaller remaining effort on ties (0 when absent). -/
def hoursValOf (t : Task) : ℚ := t.estimated_hours.getD 0

/-- Modelled from the spec: the full lexicographic ranking key of §4.1 —
bucket, then due date, then estimated hours, then creation timestamp, then
identifier. -/
def rankKey (now : Int) (t : Task) :
    Nat ×ₗ (Int ×ₗ (ℚ ×ₗ (Int ×ₗ Int))) :=
  toLex (bucketOf now t,
    toLex (dueValOf t, toLex (hoursValOf t, toLex (t.created_at, t.id))))

/-- Modelled from the spec: the ranking comparison, as a boolean relation
for sorting. -/
def rankLE (now : Int) (a b : Task) : Bool :=
  decide (rankKey now a ≤ rankKey now b)

/-- Modelled from the spec: `rank(tasks, now)` — drop completed tasks, sort
by the ranking key, return the ordered task identifiers. -/
def rank (tasks : List Task) (now : Int) : List Int :=
  ((tasks.filter fun t => !t.completed).mergeSort (rankLE now)).map Task.id

/-! ### Goal Decomposition Orchestrator

Modelled from the spec: the orchestrator lives in the backend (`main.py`),
which is not among the sources; §4.2 fixes the protocol.  The generation
call (with its bounded retries already applied) is represented by its
outcome: `none` when retries were exhausted, `some` output otherwise.
Persistence faults are represented by an oracle saying whether the i-th
entity write succeeds. -/

/-- A raw subtask entry as returned by the generation call. -/
structure RawSubtask where
  title : String
  estimated_hours : Option ℚ
deriving DecidableEq

/-- The structured generation output of §4.2 step 1. -/
structure GenOutput where
  projectName : String
  projectDescription : Option String
  subtasks : List RawSubtask
deriving DecidableEq

/-- The failure kinds of `breakdown` (§4.2 / §7). -/
inductive BreakdownError
  | upstreamUnavailable
  | validationError
  | storageError
deriving DecidableEq

/-- The Task Store as the orchestrator sees it. -/
structure Store where
  projects : List Project
  tasks : List Task
deriving DecidableEq

/-- No task references a nonexistent project. -/
def refIntegrity (s : Store) : Prop :=
  ∀ t ∈ s.tasks, ∀ pid, t.project_id = some pid →
    ∃ p ∈ s.projects, p.id = pid

/-- Modelled from the spec: §4.2 step 3 — discard entries with blank
titles; for missing or non-positive hours substitute the Estimation Model's
prediction `est` for the title. -/
def validateSubtask (est : String → ℚ) (r : RawSubtask) :
    Option (String × ℚ) :=
  if isBlank r.title then none
  else
    match r.estimated_hours with
    | some h => if 0 < h then some (r.title, h) else some (r.title, est r.title)
    | none => some (r.title, est r.title)

/-- Modelled from the spec: validation of the whole generated subtask
list. -/
def validateSubtasks (est : String → ℚ) (rs : List RawSubtask) :
    List (String × ℚ) :=
  rs.filterMap (validateSubtask est)

/-- Fresh project identifier: one past the largest existing one. -/
def nextProjectId (s : Store) : Int :=
  (s.projects.map Project.id).foldr max 0 + 1

/-- Fresh task identifier: one past the largest existing one. -/
def nextTaskId (s : Store) : Int :=
  (s.tasks.map Task.id).foldr max 0 + 1

/-- Modelled from the spec: the task created for the i-th validated
subtask of a decomposition (default mid priority, estimate attached,
referencing the new project). -/
def subtaskToTask (pid : Int) (baseId : Int) (now : Int) (i : Nat)
    (st : String × ℚ) : Task :=
  ⟨baseId + i, st.1, none, 5, some st.2, none, false, some pid, now⟩

/-- Modelled from the spec: the tasks created for the validated subtasks of
a decomposition, the i-th one getting identifier `base + i`. -/
def buildTasks (pid base now : Int) : Nat → List (String × ℚ) → List Task
  | _, [] => []
  | i, st :: rest =>
    subtaskToTask pid base now i st :: buildTasks pid base now (i + 1) rest

/-- Modelled from the spec: `breakdown` (§4.2).  `gen` is the outcome of
the retried generation call (`none` = retries exhausted), `est` the
Estimation Model, `persistOk i` whether the i-th entity write succeeds
(index 0 the project, then the tasks).  Returns the store after the call
and the result; any partial persistence is rolled back, so on failure the
store is returned unchanged. -/
def breakdown (s : Store) (gen : Option GenOutput) (est : String → ℚ)
    (persistOk : Nat → Bool) (now : Int) :
    Store × Except BreakdownError BreakdownResponse :=
  match gen with
  | none => (s, .error .upstreamUnavailable)
  | some g =>
    let subs := validateSubtasks est g.subtasks
    if subs.isEmpty then (s, .error .validationError)
    else if (List.range (subs.length + 1)).all persistOk then
      let pid := nextProjectId s
      let newTasks := buildTasks pid (nextTaskId s) now 0 subs
      (⟨s.projects ++ [⟨pid, g.projectName, g.projectDescription, now⟩],
        s.tasks ++ newTasks⟩,
       .ok ⟨pid, subs.map fun st => ⟨st.1, st.2⟩⟩)
    else (s, .error .storageError)

/-! ### Task Store operations

Modelled from the spec: creation and update validation live in the backend
(`main.py`), absent from the sources; §3 fixes the invariants, §6 the store
contract, §9 the field-by-field patch validation. -/

/-- The store error kinds of §6. -/
inductive StoreError
  | validationError
  | notFound
deriving DecidableEq

/-- Priority within the documented bounds 1–10. -/
def validPriority (p : Int) : Bool := decide (1 ≤ p) && decide (p ≤ 10)

/-- Estimated hours nonnegative when present. -/
def validHours (h : Option ℚ) : Bool :=
  match h with
  | some x => decide (0 ≤ x)
  | none => true

/-- The data-model invariants of §3 on a single task. -/
def validTask (t : Task) : Bool :=
  validPriority t.priority && validHours t.estimated_hours

/-- Every task of the store satisfies the data-model invariants. -/
def validStore (s : Store) : Bool := s.tasks.all validTask

/-- Modelled from the spec: `createTask` — reject blank titles, assign the
default mid priority and the Estimation Model's predicted hours (the
README's "AI time estimation" on creation). -/
def createTask (s : Store) (input : CreateTaskInput) (est : String → ℚ)
    (now : Int) : Store × Except StoreError Task :=
  if isBlank input.title then (s, .error .validationError)
  else
    let t : Task := ⟨nextTaskId s, input.title, input.description, 5,
      some (est input.title), input.due_date, false, input.project_id, now⟩
    (⟨s.projects, s.tasks ++ [t]⟩, .ok t)

/-- Modelled from the spec: §9 — a patch is validated field by field before
reaching the store. -/
def validPatch (p : UpdateTaskInput) : Bool :=
  (match p.title with
   | some t => !isBlank t
   | none => true) &&
  (match p.priority with
   | some pr => validPriority pr
   | none => true) &&
  (match p.estimated_hours with
   | some h => decide (0 ≤ h)
   | none => true)

/-- Modelled from the spec: applying a validated patch — present fields
overwrite, absent fields are left alone. -/
def applyPatch (t : Task) (p : UpdateTaskInput) : Task :=
  ⟨t.id,
   p.title.getD t.title,
   match p.description with
   | some d => some d
   | none => t.description,
   p.priority.getD t.priority,
   match p.estimated_hours with
   | some h => some h
   | none => t.estimated_hours,
   match p.due_date with
   | some d => some d
   | none => t.due_date,
   p.completed.getD t.completed,
   t.project_id,
   t.created_at⟩

/-- Modelled from the spec: `updateTask(id, patch)` — reject invalid
patches, report NotFound for an absent task, otherwise apply the patch. -/
def updateTask (s : Store) (id : Int) (p : UpdateTaskInput) :
    Store × Except StoreError Task :=
  if !validPatch p then (s, .error .validationError)
  else
    match s.tasks.find? (fun t => t.id = id) with
    | none => (s, .error .notFound)
    | some t =>
      let t2 := applyPatch t p
      (⟨s.projects, s.tasks.map fun u => if u.id = id then t2 else u⟩,
       .ok t2)

/-- Modelled from the spec: the rank-derived priority tier of §4.1 —
position in the ranking, clamped into the documented 1–10 band. -/
def tierOf (i : Nat) : Int := min 10 ((i : Int) + 1)

/-- Modelled from the spec: the optional priority rewrite of §4.1 — each
incomplete task's stored priority becomes its rank-derived tier; completed
tasks are left alone. -/
def rewritePriorities (s : Store) (now : Int) : Store :=
  let ordered := (s.tasks.filter fun t => !t.completed).mergeSort (rankLE now)
  let tier : Int → Int := fun tid =>
    match ordered.findIdx? (fun t => t.id = tid) with
    | some i => tierOf i
    | none => 5
  ⟨s.projects,
   s.tasks.map fun t =>
     if t.completed then t
     else ⟨t.id, t.title, t.description, tier t.id, t.estimated_hours,
       t.due_date, t.completed, t.project_id, t.created_at⟩⟩

/-! ## Theorems -/

/-- Claim C5: the priority badge is red exactly for priority ≤ 2, yellow
exactly for 3 ≤ priority ≤ 5, green exactly for priority ≥ 6, and the
Tasks page and the Dashboard apply the same bands. -/
theorem priority_color_bands (p : Int) :
    (taskPagePriorityColor p = BadgeColor.red ↔ p ≤ 2) ∧
    (taskPagePriorityColor p = BadgeColor.yellow ↔ 3 ≤ p ∧ p ≤ 5) ∧
    (taskPagePriorityColor p = BadgeColor.green ↔ 6 ≤ p) ∧
    dashboardPriorityColor p = taskPagePriorityColor p := by
  unfold taskPagePriorityColor dashboardPriorityColor
  split_ifs with h1 h2 <;> refine ⟨?_, ?_, ?_, rfl⟩ <;> simp <;> omega

/-- Claim C6: the aggregate outstanding estimated hours is the sum of
`estimated_hours` over the incomplete tasks, absent values contributing 0
and completed tasks contributing nothing. -/
theorem totalEstimatedHours_eq (tasks : List Task) :
    totalEstimatedHours tasks =
      (tasks.map fun t =>
        if t.completed then 0 else t.estimated_hours.getD 0).sum := by
  induction tasks with
  | nil => rfl
  | cons t ts ih =>
    by_cases h : t.completed <;>
      simp [totalEstimatedHours, incompleteTasks, List.filter_cons, h] at ih ⊢ <;>
      rw [← ih]

/-- Claim C10: the completion toggle patches only the `completed` field,
set to the negation of the current value, and addresses the task's id. -/
theorem toggle_only_completed (task : Task) :
    (toggleTaskComplete task).1 = task.id ∧
    (toggleTaskComplete task).2.completed = some (!task.completed) ∧
    (toggleTaskComplete task).2.title = none ∧
    (toggleTaskComplete task).2.description = none ∧
    (toggleTaskComplete task).2.priority = none ∧
    (toggleTaskComplete task).2.estimated_hours = none ∧
    (toggleTaskComplete task).2.due_date = none :=
  ⟨rfl, rfl, rfl, rfl, rfl, rfl, rfl⟩

/-- Claim C8: a blank (empty or whitespace-only) submission makes both
handlers return early — the message list and the input box are unchanged
and no API call is issued. -/
theorem blank_submit_no_request (input : String) (messages : List Message)
    (now : Int) (h : isBlank input = true) :
    handleChatSubmit input messages now = (messages, input, none) ∧
    handleGoalSubmit input = none := by
  constructor <;> simp [handleChatSubmit, handleGoalSubmit, h]

/-- Witness for claim C8 at the whitespace-only input. -/
theorem blank_submit_no_request_witness :
    handleChatSubmit "   " [] 0 = ([], "   ", none) ∧
    handleGoalSubmit "   " = none :=
  blank_submit_no_request "   " [] 0 (by decide)

/-- Claim C9: the request interceptor sets the Authorization header to
`Bearer` plus the access token exactly when the session exists and carries
a (truthy) access token; in every other case, and on every other field,
the request is forwarded unchanged. -/
theorem interceptor_auth_header (session : Option Session)
    (config : RequestConfig) :
    (requestInterceptor session config).url = config.url ∧
    (requestInterceptor session config).method = config.method ∧
    (requestInterceptor session config).data = config.data ∧
    (∀ s tok, session = some s → s.accessToken = some tok → tok ≠ "" →
      (requestInterceptor session config).authorization =
        some ("Bearer " ++ tok)) ∧
    ((∀ s, session = some s → ∀ tok, s.accessToken = some tok → tok = "") →
      requestInterceptor session config = config) := by
  rcases session with _ | ⟨acc⟩
  · exact ⟨rfl, rfl, rfl, by simp, fun _ => rfl⟩
  · rcases acc with _ | tok
    · refine ⟨rfl, rfl, rfl, ?_, fun _ => rfl⟩
      rintro s t hs ht _
      injection hs with hs
      rw [← hs] at ht
      exact absurd ht (by simp)
    · by_cases htok : tok = ""
      · subst htok
        refine ⟨rfl, rfl, rfl, ?_, fun _ => rfl⟩
        rintro s t hs ht hne
        injection hs with hs
        subst hs
        injection ht with ht
        exact absurd ht.symm hne
      · have hred : requestInterceptor (some ⟨some tok⟩) config =
            { config with authorization := some ("Bearer " ++ tok) } := by
          simp [requestInterceptor, htok]
        rw [hred]
        refine ⟨rfl, rfl, rfl, ?_, ?_⟩
        · rintro s t hs ht _
          injection hs with hs
          subst hs
          injection ht with ht
          subst ht
          rfl
        · intro hall
          exact absurd (hall ⟨some tok⟩ rfl tok rfl) htok

/-- Witness for claim C9 at a concrete session and request. -/
theorem interceptor_auth_header_witness :
    (requestInterceptor (some ⟨some "abc"⟩)
      ⟨"/tasks", "get", "", none⟩).authorization = some ("Bearer " ++ "abc") :=
  (interceptor_auth_header (some ⟨some "abc"⟩)
    ⟨"/tasks", "get", "", none⟩).2.2.2.1 ⟨some "abc"⟩ "abc" rfl rfl (by decide)

/-- Claim C1 counterexample: the `breakdown` response entry type declared
by the client carries no task identifier — no function on it can recover
the `task_id` the spec words promise, since two spec entries differing
only in `task_id` have the same client shape. -/
theorem breakdown_entry_no_task_id :
    ¬ ∃ f : BreakdownSubtask → Int,
        ∀ e : SpecSubtaskEntry, f e.erase = e.task_id := by
  rintro ⟨f, hf⟩
  have h1 := hf ⟨"a", 1, 1⟩
  have h2 := hf ⟨"a", 1, 2⟩
  simp only [SpecSubtaskEntry.erase] at h1 h2
  omega

/-- Claim C4 counterexample: a task due earlier on the current day is not
counted overdue by the Dashboard (its filter excludes `isToday` due dates),
while the claim's count includes every incomplete task due strictly before
`now`. -/
theorem overdue_today_counterexample :
    (overdueTasks [⟨1, "t", none, 5, none, some 864001000, false, none, 0⟩]
        864005000).length ≠
      claimOverdueCount
        [⟨1, "t", none, 5, none, some 864001000, false, none, 0⟩]
        864005000 := by decide

/-- Claim C4 (amended): the Dashboard counts a task overdue exactly when it
is incomplete, has a due date strictly before `now`, and that due date
falls on an earlier calendar day than `now`; tasks due earlier on the
current day are excluded. -/
theorem overdue_characterization (tasks : List Task) (now : Int) (t : Task) :
    t ∈ overdueTasks tasks now ↔
      t ∈ tasks ∧ t.completed = false ∧
        ∃ d, t.due_date = some d ∧ d < now ∧ dayOf d ≠ dayOf now := by
  simp only [overdueTasks, incompleteTasks, List.mem_filter]
  rcases hd : t.due_date with _ | d
  · simp [hd]
  · simp only [hd, Bool.and_eq_true, Bool.not_eq_true', isPast, isToday,
      decide_eq_true_eq, decide_eq_false_iff_not, Option.some.injEq]
    constructor
    · rintro ⟨⟨ht, hc⟩, hlt, hday⟩
      exact ⟨ht, hc, d, rfl, hlt, hday⟩
    · rintro ⟨ht, hc, d2, hd2, hlt, hday⟩
      subst hd2
      exact ⟨⟨ht, hc⟩, hlt, hday⟩

/-! ### Helper lemmas on validation and decomposition -/

/-- What validation guarantees about an accepted subtask entry: the title
is non-blank and the hours are either the generator's positive figure or an
Estimation Model prediction. -/
theorem validateSubtask_spec {est : String → ℚ} {r : RawSubtask}
    {st : String × ℚ} (h : validateSubtask est r = some st) :
    isBlank st.1 = false ∧ (0 < st.2 ∨ ∃ y, st.2 = est y) := by
  unfold validateSubtask at h
  split at h
  · simp at h
  · next hb =>
    have hb2 : isBlank r.title = false := by simpa using hb
    split at h
    · split at h
      · next hx =>
        injection h with h
        rw [← h]
        exact ⟨hb2, Or.inl hx⟩
      · injection h with h
        rw [← h]
        exact ⟨hb2, Or.inr ⟨r.title, rfl⟩⟩
    · injection h with h
      rw [← h]
      exact ⟨hb2, Or.inr ⟨r.title, rfl⟩⟩

/-- A validated subtask entry has a non-blank title. -/
theorem validateSubtask_title {est : String → ℚ} {r : RawSubtask}
    {st : String × ℚ} (h : validateSubtask est r = some st) :
    isBlank st.1 = false :=
  (validateSubtask_spec h).1

/-- A validated subtask entry has nonnegative hours whenever the
Estimation Model only predicts nonnegative hours. -/
theorem validateSubtask_hours {est : String → ℚ} (hest : ∀ x, 0 ≤ est x)
    {r : RawSubtask} {st : String × ℚ}
    (h : validateSubtask est r = some st) : 0 ≤ st.2 := by
  rcases (validateSubtask_spec h).2 with hx | ⟨y, hy⟩
  · exact le_of_lt hx
  · rw [hy]
    exact hest y

/-- Membership in the validated subtask list comes from validating some raw
entry. -/
theorem mem_validateSubtasks {est : String → ℚ} {rs : List RawSubtask}
    {st : String × ℚ} (h : st ∈ validateSubtasks est rs) :
    ∃ r ∈ rs, validateSubtask est r = some st := by
  simpa only [validateSubtasks, List.mem_filterMap] using h

/-- `buildTasks` creates exactly one task per validated subtask. -/
theorem buildTasks_length (pid base now : Int) :
    ∀ (i : Nat) (l : List (String × ℚ)),
      (buildTasks pid base now i l).length = l.length := by
  intro i l
  induction l generalizing i with
  | nil => rfl
  | cons a t ih => simp [buildTasks, ih]

/-- Every task created by `buildTasks` is `subtaskToTask` of some listed
subtask. -/
theorem mem_buildTasks {pid base now : Int} :
    ∀ {i : Nat} {l : List (String × ℚ)} {t : Task},
      t ∈ buildTasks pid base now i l →
      ∃ j st, st ∈ l ∧ t = subtaskToTask pid base now j st := by
  intro i l
  induction l generalizing i with
  | nil => intro t ht; simp [buildTasks] at ht
  | cons a rest ih =>
    intro t ht
    rcases List.mem_cons.1 ht with h | h
    · exact ⟨i, a, List.mem_cons_self a rest, h⟩
    · obtain ⟨j, st, hst, heq⟩ := ih h
      exact ⟨j, st, List.mem_cons_of_mem a hst, heq⟩

/-- Claim C2: every failing invocation of `breakdown` (retries exhausted,
zero usable subtasks, or a persistence failure) leaves the Task Store
exactly as it was, and reference integrity is preserved. -/
theorem breakdown_failure_atomic (s : Store) (gen : Option GenOutput)
    (est : String → ℚ) (persistOk : Nat → Bool) (now : Int)
    (e : BreakdownError)
    (h : (breakdown s gen est persistOk now).2 = .error e) :
    (breakdown s gen est persistOk now).1 = s ∧
    (refIntegrity s → refIntegrity (breakdown s gen est persistOk now).1) := by
  have hstore : (breakdown s gen est persistOk now).1 = s := by
    cases gen with
    | none => rfl
    | some g =>
      unfold breakdown
      by_cases hempty : (validateSubtasks est g.subtasks).isEmpty
      · simp [hempty]
      · by_cases hok :
            ((List.range ((validateSubtasks est g.subtasks).length + 1)).all
              persistOk)
        · exfalso
          unfold breakdown at h
          simp [hempty, hok] at h
        · simp [hempty, hok]
  refine ⟨hstore, fun hr => ?_⟩
  rw [hstore]
  exact hr

/-- Witness for claim C2: the upstream-unavailable failure on the empty
store leaves the store empty. -/
theorem breakdown_failure_atomic_witness :
    (breakdown ⟨[], []⟩ none (fun _ => 2) (fun _ => true) 0).1 = ⟨[], []⟩ :=
  (breakdown_failure_atomic ⟨[], []⟩ none (fun _ => 2) (fun _ => true) 0
    .upstreamUnavailable rfl).1

/-- Claim C1 (amended): a successful `breakdown` returns the identifier of
the newly created project together with a nonempty subtask list whose
entries each carry a non-blank title and an estimated-hours value; exactly
one project and one task per entry were created.  The response entries
carry no task identifier (see the counterexample). -/
theorem breakdown_success_shape (s : Store) (gen : Option GenOutput)
    (est : String → ℚ) (persistOk : Nat → Bool) (now : Int)
    (r : BreakdownResponse)
    (h : (breakdown s gen est persistOk now).2 = .ok r) :
    (∃ p ∈ (breakdown s gen est persistOk now).1.projects,
        p.id = r.project_id) ∧
    r.subtasks ≠ [] ∧
    (∀ e ∈ r.subtasks, isBlank e.title = false) ∧
    (breakdown s gen est persistOk now).1.projects.length =
      s.projects.length + 1 ∧
    (breakdown s gen est persistOk now).1.tasks.length =
      s.tasks.length + r.subtasks.length := by
  cases gen with
  | none => exact absurd h (by simp [breakdown])
  | some g =>
    by_cases hempty : (validateSubtasks est g.subtasks).isEmpty
    · exfalso
      unfold breakdown at h
      simp [hempty] at h
    · by_cases hok :
          ((List.range ((validateSubtasks est g.subtasks).length + 1)).all
            persistOk)
      · unfold breakdown at h ⊢
        simp only [hempty, hok, Bool.false_eq_true, if_false, if_true,
          Bool.not_eq_true, Except.ok.injEq] at h ⊢
        subst h
        refine ⟨⟨⟨nextProjectId s, g.projectName, g.projectDescription, now⟩,
          by simp, rfl⟩, ?_, ?_, by simp, ?_⟩
        · have hne : validateSubtasks est g.subtasks ≠ [] := by
            simpa [List.isEmpty_iff] using hempty
          simpa using hne
        · rintro e he
          obtain ⟨st, hst, rfl⟩ := List.mem_map.1 he
          obtain ⟨rr, _, hv⟩ := mem_validateSubtasks hst
          exact validateSubtask_title hv
        · simp [buildTasks_length]
      · exfalso
        unfold breakdown at h
        simp [hempty, hok] at h

/-- Witness for claim C1: a concrete successful decomposition of one
subtask. -/
theorem breakdown_success_shape_witness :
    (breakdown ⟨[], []⟩ (some ⟨"site", none, [⟨"design", some 2⟩]⟩)
        (fun _ => 1) (fun _ => true) 0).1.projects.length =
      (⟨[], []⟩ : Store).projects.length + 1 :=
  (breakdown_success_shape ⟨[], []⟩ (some ⟨"site", none, [⟨"design", some 2⟩]⟩)
    (fun _ => 1) (fun _ => true) 0 ⟨1, [⟨"design", 2⟩]⟩ rfl).2.2.2.1

/-! ### Ranking determinism -/

/-- The ranking comparison is transitive. -/
theorem rankLE_trans (now : Int) (a b c : Task) :
    rankLE now a b → rankLE now b c → rankLE now a c := by
  simp only [rankLE, decide_eq_true_eq]
  exact le_trans

/-- The ranking comparison is total. -/
theorem rankLE_total (now : Int) (a b : Task) :
    rankLE now a b || rankLE now b a := by
  simp only [rankLE, Bool.or_eq_true, decide_eq_true_eq]
  exact le_total _ _

/-- Equal ranking keys force equal identifiers (the identifier is the last
lexicographic component). -/
theorem rankKey_inj_id {now : Int} {a b : Task}
    (h : rankKey now a = rankKey now b) : a.id = b.id := by
  simp only [rankKey, toLex_inj, Prod.mk.injEq] at h
  exact h.2.2.2.2

/-- Mutually comparable tasks have equal ranking keys. -/
theorem rankLE_antisymm_key {now : Int} {a b : Task}
    (h1 : rankLE now a b) (h2 : rankLE now b a) :
    rankKey now a = rankKey now b := by
  simp only [rankLE, decide_eq_true_eq] at h1 h2
  exact le_antisymm h1 h2

/-- Two sorted lists that are permutations of each other are equal, given
antisymmetry of the relation on the elements actually present. -/
theorem sorted_perm_eq {α : Type} {r : α → α → Prop} :
    ∀ {l₁ l₂ : List α}, l₁.Perm l₂ → l₁.Pairwise r → l₂.Pairwise r →
      (∀ a ∈ l₁, ∀ b ∈ l₁, r a b → r b a → a = b) → l₁ = l₂ := by
  intro l₁
  induction l₁ with
  | nil =>
    intro l₂ hp _ _ _
    exact hp.nil_eq
  | cons a t ih =>
    intro l₂ hp h₁ h₂ hanti
    cases l₂ with
    | nil => exact absurd hp.symm.nil_eq (by simp)
    | cons b t₂ =>
      have hab : a = b := by
        by_cases hEq : a = b
        · exact hEq
        · have hbl : b ∈ a :: t := hp.symm.subset (List.mem_cons_self b t₂)
          have hal : a ∈ b :: t₂ := hp.subset (List.mem_cons_self a t)
          have hbt : b ∈ t := by
            rcases List.mem_cons.1 hbl with hx | hx
            · exact absurd hx.symm hEq
            · exact hx
          have hat : a ∈ t₂ := by
            rcases List.mem_cons.1 hal with hx | hx
            · exact absurd hx hEq
            · exact hx
          have rab : r a b := (List.pairwise_cons.1 h₁).1 b hbt
          have rba : r b a := (List.pairwise_cons.1 h₂).1 a hat
          exact hanti a (List.mem_cons_self a t) b
            (List.mem_cons_of_mem a hbt) rab rba
      subst hab
      have hpt : t.Perm t₂ := hp.cons_inv
      have ht := ih hpt (List.pairwise_cons.1 h₁).2 (List.pairwise_cons.1 h₂).2
        (fun x hx y hy hxy hyx =>
          hanti x (List.mem_cons_of_mem a hx) y
            (List.mem_cons_of_mem a hy) hxy hyx)
      rw [ht]

/-- Claim C3: the ranking is deterministic — on task lists presenting the
same task set (permutations of each other, identifiers unrepeated) with
the same `now`, `rank` yields the identical ordered identifier sequence;
on literally identical input the result is identical by purity. -/
theorem rank_deterministic (l₁ l₂ : List Task) (now : Int)
    (hperm : l₁.Perm l₂) (hids : (l₁.map Task.id).Nodup) :
    rank l₁ now = rank l₂ now := by
  unfold rank
  have hpf : (l₁.filter fun t => !t.completed).Perm
      (l₂.filter fun t => !t.completed) := hperm.filter _
  have hinj : ∀ x ∈ l₁, ∀ y ∈ l₁, x.id = y.id → x = y :=
    List.inj_on_of_nodup_map hids
  have hs₁ := @List.sorted_mergeSort Task (rankLE now)
    (rankLE_trans now) (rankLE_total now) (l₁.filter fun t => !t.completed)
  have hs₂ := @List.sorted_mergeSort Task (rankLE now)
    (rankLE_trans now) (rankLE_total now) (l₂.filter fun t => !t.completed)
  have hsp : ((l₁.filter fun t => !t.completed).mergeSort (rankLE now)).Perm
      ((l₂.filter fun t => !t.completed).mergeSort (rankLE now)) :=
    ((List.mergeSort_perm _ _).trans hpf).trans
      (List.mergeSort_perm _ _).symm
  have key : (l₁.filter fun t => !t.completed).mergeSort (rankLE now) =
      (l₂.filter fun t => !t.completed).mergeSort (rankLE now) := by
    apply sorted_perm_eq hsp hs₁ hs₂
    intro x hx y hy hxy hyx
    have hxl : x ∈ l₁ :=
      List.mem_of_mem_filter ((List.mergeSort_perm _ _).subset hx)
    have hyl : y ∈ l₁ :=
      List.mem_of_mem_filter ((List.mergeSort_perm _ _).subset hy)
    exact hinj x hxl y hyl (rankKey_inj_id (rankLE_antisymm_key hxy hyx))
  rw [key]

/-- Witness for claim C3: two presentations of the same two-task set rank
identically. -/
theorem rank_deterministic_witness :
    rank [⟨1, "a", none, 5, none, some 100, false, none, 0⟩,
          ⟨2, "b", none, 5, none, some 200, false, none, 0⟩] 50 =
    rank [⟨2, "b", none, 5, none, some 200, false, none, 0⟩,
          ⟨1, "a", none, 5, none, some 100, false, none, 0⟩] 50 :=
  rank_deterministic _ _ 50 (List.Perm.swap _ _ _) (by decide)

/-! ### Invariant preservation -/

/-- The rank-derived tier always lies in the documented 1–10 band. -/
theorem validPriority_tierOf (i : Nat) : validPriority (tierOf i) = true := by
  simp only [validPriority, tierOf, Bool.and_eq_true, decide_eq_true_eq]
  omega

/-- A freshly built task with the default priority and nonnegative hours is
valid. -/
theorem validTask_mk5 (i : Int) (ti : String) (de : Option String)
    (hrs : ℚ) (hh : 0 ≤ hrs) (du : Option Int) (co : Bool) (pj : Option Int)
    (cr : Int) : validTask ⟨i, ti, de, 5, some hrs, du, co, pj, cr⟩ = true := by
  simp only [validTask, validPriority, validHours, Bool.and_eq_true,
    decide_eq_true_eq]
  exact ⟨⟨by omega, by omega⟩, hh⟩

/-- Applying a validated patch to a valid task yields a valid task. -/
theorem applyPatch_valid {t : Task} {p : UpdateTaskInput}
    (ht : validTask t = true) (hp : validPatch p = true) :
    validTask (applyPatch t p) = true := by
  cases hpr : p.priority <;> cases hph : p.estimated_hours <;>
    cases hth : t.estimated_hours <;>
    simp_all [applyPatch, validTask, validPatch, validPriority, validHours]

/-- Claim C7: every task accepted or produced by creation, update,
decomposition or the ranking rewrite satisfies priority ∈ [1,10] and
nonnegative estimated hours when present, and each operation preserves a
valid store, assuming the Estimation Model only predicts nonnegative hours
(its §4.3 contract). -/
theorem ops_preserve_invariants (est : String → ℚ)
    (hest : ∀ x, 0 ≤ est x) :
    (∀ s input now t, (createTask s input est now).2 = .ok t →
      validTask t = true) ∧
    (∀ s input now, validStore s = true →
      validStore (createTask s input est now).1 = true) ∧
    (∀ s tid p t, validStore s = true → (updateTask s tid p).2 = .ok t →
      validTask t = true) ∧
    (∀ s tid p, validStore s = true →
      validStore (updateTask s tid p).1 = true) ∧
    (∀ s gen persistOk now, validStore s = true →
      validStore (breakdown s gen est persistOk now).1 = true) ∧
    (∀ s now, validStore s = true →
      validStore (rewritePriorities s now) = true) := by
  have hc1 : ∀ s input now t, (createTask s input est now).2 = .ok t →
      validTask t = true := by
    intro s input now t h
    unfold createTask at h
    split at h
    · simp at h
    · simp only [Except.ok.injEq] at h
      subst h
      exact validTask_mk5 _ _ _ _ (hest _) _ _ _ _
  have hc2 : ∀ s input now, validStore s = true →
      validStore (createTask s input est now).1 = true := by
    intro s input now hs
    unfold createTask
    split
    · exact hs
    · simp only [validStore, List.all_append, Bool.and_eq_true] at hs ⊢
      refine ⟨hs, ?_⟩
      simp only [List.all_cons, List.all_nil, Bool.and_true]
      exact validTask_mk5 _ _ _ _ (hest _) _ _ _ _
  have hc3 : ∀ s tid p t, validStore s = true →
      (updateTask s tid p).2 = .ok t → validTask t = true := by
    intro s tid p t hs h
    unfold updateTask at h
    split at h
    · simp at h
    · next hvp =>
      have hvp2 : validPatch p = true := by simpa using hvp
      split at h
      · simp at h
      · next t0 hfind =>
        simp only [Except.ok.injEq] at h
        subst h
        simp only [validStore, List.all_eq_true] at hs
        exact applyPatch_valid (hs t0 (List.mem_of_find?_eq_some hfind)) hvp2
  have hc4 : ∀ s tid p, validStore s = true →
      validStore (updateTask s tid p).1 = true := by
    intro s tid p hs
    unfold updateTask
    split
    · exact hs
    · next hvp =>
      have hvp2 : validPatch p = true := by simpa using hvp
      split
      · exact hs
      · next t0 hfind =>
        simp only [validStore, List.all_eq_true] at hs ⊢
        intro u hu
        obtain ⟨v, hv, hveq⟩ := List.mem_map.1 hu
        by_cases hid : v.id = tid
        · rw [← hveq, if_pos hid]
          exact applyPatch_valid (hs t0 (List.mem_of_find?_eq_some hfind)) hvp2
        · rw [← hveq, if_neg hid]
          exact hs v hv
  have hc5 : ∀ s gen persistOk now, validStore s = true →
      validStore (breakdown s gen est persistOk now).1 = true := by
    intro s gen persistOk now hs
    cases gen with
    | none => exact hs
    | some g =>
      unfold breakdown
      by_cases hempty : (validateSubtasks est g.subtasks).isEmpty
      · simp only [hempty, if_true]
        exact hs
      · by_cases hok :
            ((List.range ((validateSubtasks est g.subtasks).length + 1)).all
              persistOk)
        · simp only [hempty, hok, Bool.false_eq_true, if_false, if_true]
          simp only [validStore, List.all_append, Bool.and_eq_true]
          refine ⟨hs, ?_⟩
          simp only [List.all_eq_true]
          intro u hu
          obtain ⟨j, st, hst, rfl⟩ := mem_buildTasks hu
          obtain ⟨rr, _, hv⟩ := mem_validateSubtasks hst
          exact validTask_mk5 _ _ _ _ (validateSubtask_hours hest hv) _ _ _ _
        · simp only [hempty, hok, Bool.false_eq_true, if_false]
          exact hs
  have hc6 : ∀ s now, validStore s = true →
      validStore (rewritePriorities s now) = true := by
    intro s now hs
    unfold rewritePriorities
    simp only [validStore, List.all_eq_true] at hs ⊢
    intro u hu
    obtain ⟨v, hv, hveq⟩ := List.mem_map.1 hu
    by_cases hco : v.completed
    · rw [← hveq, if_pos hco]
      exact hs v hv
    · rw [← hveq, if_neg hco]
      have hv2 := hs v hv
      simp only [validTask, Bool.and_eq_true] at hv2 ⊢
      refine ⟨?_, hv2.2⟩
      split
      · next i _ => exact validPriority_tierOf i
      · simp [validPriority]
  exact ⟨hc1, hc2, hc3, hc4, hc5, hc6⟩

/-- Witness for claim C7: creating a task on the empty store with a
nonnegative estimator yields a valid store. -/
theorem ops_preserve_invariants_witness :
    validStore (createTask ⟨[], []⟩ ⟨"write tests", none, none, none⟩
      (fun _ => 2) 0).1 = true :=
  (ops_preserve_invariants (fun _ => 2) (fun _ => by norm_num)).2.1
    ⟨[], []⟩ ⟨"write tests", none, none, none⟩ 0 rfl

end TaskApp
